import Mathlib

/-!
# Verification of the vocab_flash card renderer

Shallow embedding of the card-generation pipeline of `api/index.py`
(`create_vocab_card_bytes`, `get_groq_enrichment`, `fetch_source_data`,
`handler.do_GET`) together with proofs of the specification claims about it.

Conventions of the embedding:

* Pixel measurement of text (Pillow's `draw.textbbox`) and the standard-library
  character-count wrapper (`textwrap.wrap(meaning, width = 50)`) are external
  library facilities whose outputs depend on the loaded font files.  They are
  modelled by an explicit `Metrics` record of oracles passed to every layout
  function; widths and heights are the non-negative integers
  `bbox[2] - bbox[0]` and `bbox[3] - bbox[1]`.
* All coordinates are exact: with `SCALE = 0.5` every float the Python code
  manipulates is an integer multiple of one half, and every value that is ever
  compared or drawn (`W`, `H`, `s(p)`, cursor positions) is an exact integer,
  so `Int` arithmetic reproduces the Python float arithmetic bit-for-bit.
  `s(pixels) = int(pixels * 0.5)` is floor division by two on the (always
  non-negative) layout constants.
* Fallible effects (the upstream fetch, the Groq call) are modelled by
  explicit `Option`/`Except` values describing the outcome of the effect, and
  Python exceptions escaping a function are `Except.error` results.
-/

/-! ## Python string primitives used by the code -/

/-- `str.split()` (no separator): split on runs of whitespace, discarding
empty pieces.  `acc` holds the characters of the current token, reversed. -/
def splitWsAux : List Char → List Char → List String
  | [], acc => if acc.isEmpty then [] else [String.mk acc.reverse]
  | c :: cs, acc =>
      if c.isWhitespace then
        (if acc.isEmpty then splitWsAux cs [] else String.mk acc.reverse :: splitWsAux cs [])
      else splitWsAux cs (c :: acc)

/-- Python `text.split()`: the whitespace-separated tokens of `text`. -/
def pyTokens (t : String) : List String := splitWsAux t.toList []

/-- Python `' '.join(ws)`. -/
def joinSp : List String → String
  | [] => ""
  | [w] => w
  | w :: ws => w ++ " " ++ joinSp ws

/-- Python `t.lower()`. -/
def pyLower (t : String) : String := String.mk (t.toList.map Char.toLower)

/-- Python `t.capitalize()`: first character upper-cased, the rest lower-cased. -/
def pyCapitalize (t : String) : String :=
  match t.toList with
  | [] => ""
  | c :: cs => String.mk (c.toUpper :: cs.map Char.toLower)

/-- `"".join(char for char in word if char.isalnum()).lower()` — the
normalisation the renderer applies to each candidate word of an example
sentence (lines 271 and 315 of `api/index.py`). -/
def cleanWord (w : String) : String :=
  String.mk ((w.toList.filter Char.isAlphanum).map Char.toLower)

/-- Python substring test `needle in hay`. -/
def substrB (needle hay : String) : Bool := decide (needle.toList <:+: hay.toList)

/-! ## Data model -/

/-- One entry of the `derivatives` list: `{"word": ..., "pos": ...}`. -/
structure Derivative where
  word : String
  pos : String
deriving DecidableEq, Repr

/-- The enriched record consumed by `create_vocab_card_bytes` (the keys the
Groq prompt demands and the fallback dictionary provides). -/
structure WordRecord where
  term : String
  pos : String
  meaning : String
  derivatives : List Derivative
  synonyms : List String
  examples : List String
deriving DecidableEq, Repr

/-- The font roles loaded at lines 131–140 of `api/index.py`. -/
inductive FontRole
  | title | posLabel | littlePos | body | boldBody | header | small | cta
deriving DecidableEq, Repr

/-- The measurement oracles of the environment: `bboxW f t` and `bboxH f t`
are `bbox[2] - bbox[0]` and `bbox[3] - bbox[1]` of `draw.textbbox((0,0), t,
font = f)` for the loaded font playing role `f`, and `wrapMeaning` is the
standard library call `textwrap.wrap(·, width = 50)` used for the definition
paragraph.  All are pure: Pillow measurement is deterministic per font. -/
structure Metrics where
  bboxW : FontRole → String → Nat
  bboxH : FontRole → String → Nat
  wrapMeaning : String → List String

/-! ## Layout constants (`create_vocab_card_bytes`, lines 111–152) -/

/-- `s(pixels) = int(pixels * SCALE)` with `SCALE = 0.5`: since `p * 0.5` is
exact in floating point, this is floor division by two. -/
def s (p : Nat) : Int := (p / 2 : Nat)

/-- `W = 1200 * 0.5`. -/
def cardW : Int := 600
/-- `H = 1400 * 0.5`. -/
def cardH : Int := 700
/-- `margin_x = s(80)`. -/
def marginX : Int := s 80
/-- `footer_y = H - s(60)`. -/
def footerY : Int := cardH - s 60

/-! ## The CTA line wrapper (lines 229–243) -/

/-- The greedy loop of lines 233–243: `cur` is `current_line` (a list of
words), `ws` the remaining words.  A word joins the current line when the
measured width of `' '.join(current_line + [word])` fits the budget;
otherwise the current line is flushed and the word starts a new one.  After
the loop a non-empty `current_line` is flushed. -/
def wrapGreedy (measure : String → Nat) (maxW : Nat) : List String → List String → List String
  | cur, [] => if cur.isEmpty then [] else [joinSp cur]
  | cur, w :: ws =>
      let test := joinSp (cur ++ [w])
      if measure test ≤ maxW then wrapGreedy measure maxW (cur ++ [w]) ws
      else joinSp cur :: wrapGreedy measure maxW [w] ws

/-- The line wrapper as implemented for the call-to-action text: split the
text on whitespace and run the greedy accumulation with an empty starting
line. -/
def wrapCta (measure : String → Nat) (maxW : Nat) (text : String) : List String :=
  wrapGreedy measure maxW [] (pyTokens text)

/-- Line 225. -/
def ctaText : String :=
  "Challenge: Write a sentence using one of the derivatives in the comments!"

/-- `max_cta_width = W - (2 * margin_x)` (line 228). -/
def maxCtaWidth : Int := cardW - 2 * marginX

/-- Lines 229–243 applied to the fixed CTA text with the CTA font. -/
def ctaLines (m : Metrics) : List String :=
  wrapCta (m.bboxW FontRole.cta) maxCtaWidth.toNat ctaText

/-- `line_height = (bbox of "Aj")[3] - [1] + s(15)` (lines 246–247). -/
def ctaLineHeight (m : Metrics) : Int := (m.bboxH FontRole.cta "Aj" : Int) + s 15

/-- `cta_block_height = len(cta_lines) * line_height` (line 248). -/
def ctaBlockHeight (m : Metrics) : Int := (ctaLines m).length * ctaLineHeight m

/-- `cta_start_y = footer_y - cta_block_height - s(80)` (line 252). -/
def ctaStartY (m : Metrics) : Int := footerY - ctaBlockHeight m - s 80

/-! ## The vertical cursor down to the usage box (lines 148–222) -/

/-- Cursor after the header block: starts at `s(50)`, advances by the title's
measured height plus `s(40)` (lines 148–175).  The title text drawn and
measured is `data['term'].capitalize()`. -/
def cursorAfterHeader (m : Metrics) (data : WordRecord) : Int :=
  s 50 + (m.bboxH FontRole.title (pyCapitalize data.term) : Int) + s 40

/-- Cursor after the definition paragraph: one `s(55)` advance per wrapped
line of `textwrap.wrap(data['meaning'], width=50)`, then `s(40)`
(lines 178–183). -/
def cursorAfterMeaning (m : Metrics) (data : WordRecord) : Int :=
  cursorAfterHeader m data + ((m.wrapMeaning data.meaning).length : Int) * s 55 + s 40

/-- Cursor below the first separator line (lines 186–187). -/
def cursorAfterSep1 (m : Metrics) (data : WordRecord) : Int :=
  cursorAfterMeaning m data + s 50

/-- `col2_x = W // 2 + s(40)` (line 191). -/
def col2X : Int := cardW / 2 + s 40

/-- Where one request to draw a piece of text landed: the string, the font
role it was given, and the top-left coordinate passed to `draw.text`. -/
structure Painted where
  txt : String
  fnt : FontRole
  x : Int
  y : Int
deriving DecidableEq, Repr

/-- The two-column block of lines 189–218: the headers are drawn at the shared
`cursor_y`; each derivative advances `deriv_cursor_y` by `s(55)` (word plus
inline POS label), each synonym advances `syn_cursor_y` by `s(55)` (bullet
plus word); afterwards `cursor_y = max(deriv_cursor_y, syn_cursor_y) + s(40)`
(line 218).  Returns the draw calls of the block and the new cursor. -/
def columnsBlock (m : Metrics) (cursorY : Int) (data : WordRecord) :
    List Painted × Int :=
  let derivFinal := data.derivatives.foldl
    (fun (st : Int × List Painted) item =>
      let ww : Int := m.bboxW FontRole.body item.word
      (st.1 + s 55,
       st.2 ++ [⟨item.word, FontRole.body, marginX, st.1⟩,
                ⟨item.pos, FontRole.littlePos, marginX + ww + s 15, st.1⟩]))
    (cursorY + s 60, [])
  let synFinal := data.synonyms.foldl
    (fun (st : Int × List Painted) syn =>
      (st.1 + s 55,
       st.2 ++ [⟨"•", FontRole.boldBody, col2X, st.1⟩,
                ⟨syn, FontRole.body, col2X + s 30, st.1⟩]))
    (cursorY + s 60, [])
  (⟨"DERIVATIVES", FontRole.header, marginX, cursorY⟩ :: derivFinal.2 ++
     ⟨"SYNONYMS", FontRole.header, col2X, cursorY⟩ :: synFinal.2,
   max derivFinal.1 synFinal.1 + s 40)

/-- `box_top`: the cursor below the second separator, `s(60)` under the
cursor the column block left (lines 220–222, 255). -/
def boxTop (m : Metrics) (data : WordRecord) : Int :=
  (columnsBlock m (cursorAfterSep1 m data) data).2 + s 60

/-- `available_height = cta_start_y - box_top - s(60)` (line 257). -/
def availableHeight (m : Metrics) (data : WordRecord) : Int :=
  ctaStartY m - boxTop m data - s 60

/-! ## The usage-examples dry run (lines 259–287) -/

/-- `text_start_x = margin_x + s(70)` (line 260). -/
def textStartX : Int := marginX + s 70

/-- `usable_width = W - text_start_x - margin_x - s(40)` (line 261). -/
def usableWidth : Int := cardW - textStartX - marginX - s 40

/-- `target_word = data['term'].lower()` (line 263). -/
def targetWord (data : WordRecord) : String := pyLower data.term

/-- The dry-run pass's per-word styling decision (lines 271–273):
`is_target = target_word in clean_word` selects the bold body font. -/
def dryFont (tw word : String) : FontRole :=
  if substrB tw (cleanWord word) then FontRole.boldBody else FontRole.body

/-- One iteration of the measurement loop of lines 270–280 over the state
`(curr_line_width, lines)`: the measured width of `word + " "` is added to
the current line, or opens a new line when it would exceed `usable_width`. -/
def dryStep (m : Metrics) (tw : String) (st : Int × Int) (word : String) : Int × Int :=
  let fnt := dryFont tw word
  let ww : Int := m.bboxW fnt (word ++ " ")
  if st.1 + ww > usableWidth then (ww, st.2 + 1) else (st.1 + ww, st.2)

/-- The dry-run line count for one sentence: the loop of lines 267–280
starting from `curr_line_width = 0`, `lines = 1`. -/
def drySentenceLines (m : Metrics) (tw : String) (sentence : String) : Int :=
  ((pyTokens sentence).foldl (dryStep m tw) (0, 1)).2

/-- `content_height` (lines 259–283): `s(60)`, plus per sentence
`lines * s(55) + s(40)`, plus a final `s(30)`. -/
def contentHeight (m : Metrics) (data : WordRecord) : Int :=
  (data.examples.foldl
    (fun ch sent => ch + drySentenceLines m (targetWord data) sent * s 55 + s 40)
    (s 60)) + s 30

/-- `box_height = min(content_height, available_height)`, raised to `s(100)`
when below it (lines 284–287). -/
def boxHeight (m : Metrics) (data : WordRecord) : Int :=
  let bh := min (contentHeight m data) (availableHeight m data)
  if bh < s 100 then s 100 else bh

/-! ## The usage-examples render pass (lines 295–332) -/

/-- The render pass's per-word styling decision (lines 315–317) — textually
the same computation as the dry run's. -/
def renderFont (tw word : String) : FontRole :=
  if substrB tw (cleanWord word) then FontRole.boldBody else FontRole.body

/-- `text_x = bullet_x + s(40)` with `bullet_x = margin_x + s(30)`
(lines 304, 307). -/
def renderTextX : Int := marginX + s 30 + s 40

/-- `max_width = W - margin_x - s(40)` (line 312). -/
def renderMaxWidth : Int := cardW - marginX - s 40

/-- State of the word loop of lines 314–330: the pen position
`(curr_line_x, curr_line_y)`, whether the `break` of line 327 has fired, and
the `draw.text` calls made so far. -/
structure RenderSt where
  x : Int
  y : Int
  stopped : Bool
  painted : List Painted
deriving DecidableEq, Repr

/-- One iteration of the word loop (lines 314–330) with bottom bound
`yLim = box_top + box_height - s(50)`: wrap to a fresh line when the word
would cross `max_width`, stop for good when the pen crosses `yLim`,
otherwise draw the word and advance the pen. -/
def renderWordStep (m : Metrics) (tw : String) (yLim : Int) (st : RenderSt)
    (word : String) : RenderSt :=
  if st.stopped then st else
    let fnt := renderFont tw word
    let ww : Int := m.bboxW fnt (word ++ " ")
    let x1 := if st.x + ww > renderMaxWidth then renderTextX else st.x
    let y1 := if st.x + ww > renderMaxWidth then st.y + s 55 else st.y
    if y1 > yLim then ⟨x1, y1, true, st.painted⟩
    else ⟨x1 + ww, y1, false, st.painted ++ [⟨word, fnt, x1, y1⟩]⟩

/-- The word loop for one sentence starting at `(text_x, content_y)`
(lines 307–330). -/
def renderSentence (m : Metrics) (tw : String) (yLim contentY : Int)
    (sentence : String) : RenderSt :=
  (pyTokens sentence).foldl (renderWordStep m tw yLim) ⟨renderTextX, contentY, false, []⟩

/-- The sentence loop of lines 300–332: before each sentence the bounds
check of line 302 may break out; otherwise a bullet is drawn at
`(margin_x + s(30), content_y)`, the word loop runs, and
`content_y = curr_line_y + s(75)` for the next sentence. -/
def renderExamplesGo (m : Metrics) (tw : String) (yLim : Int) :
    Int → List String → List Painted
  | _, [] => []
  | cy, sent :: rest =>
      if cy > yLim then []
      else
        let r := renderSentence m tw yLim cy sent
        ⟨"•", FontRole.boldBody, marginX + s 30, cy⟩ :: r.painted ++
          renderExamplesGo m tw yLim (r.y + s 75) rest

/-- Every `draw.text` call the examples region makes below its
"USAGE EXAMPLES" header: the loop starts at
`content_y = box_top + s(30) + s(60)` (lines 296–298). -/
def renderExamples (m : Metrics) (data : WordRecord) : List Painted :=
  renderExamplesGo m (targetWord data) (boxTop m data + boxHeight m data - s 50)
    (boxTop m data + s 30 + s 60) data.examples

/-! ## Whole-card assembly (`create_vocab_card_bytes`) -/

/-- Paint the wrapped meaning lines, one `s(55)` step apart (lines 179–181). -/
def meaningPaints : Int → List String → List Painted
  | _, [] => []
  | cy, l :: ls => ⟨l, FontRole.body, marginX, cy⟩ :: meaningPaints (cy + s 55) ls

/-- Paint the CTA lines from `cta_start_y`, one `line_height` apart
(lines 335–338). -/
def ctaPaints (m : Metrics) : Int → List String → List Painted
  | _, [] => []
  | cy, l :: ls => ⟨l, FontRole.cta, marginX, cy⟩ :: ctaPaints m (cy + ctaLineHeight m) ls

/-- The observable outcome of one `create_vocab_card_bytes` call: the
dimensions handed to `Image.new` and the text draw calls of each region (the
separator lines, the box rectangle and the footer logo are pure shapes and
carry no text). -/
structure CardRender where
  imgW : Int
  imgH : Int
  titlePaint : Painted
  posPaint : Painted
  meaningRegion : List Painted
  columnsRegion : List Painted
  cursorAfterColumns : Int
  usageBoxTop : Int
  usageBoxHeight : Int
  usageHeaderPaint : Painted
  exampleRegion : List Painted
  ctaRegion : List Painted
deriving DecidableEq, Repr

/-- The full layout pass of `create_vocab_card_bytes` (lines 110–387) as a
pure function of the record and the measurement environment. -/
def createVocabCard (m : Metrics) (data : WordRecord) : CardRender :=
  let termText := pyCapitalize data.term
  let titleW : Int := m.bboxW FontRole.title termText
  let cols := columnsBlock m (cursorAfterSep1 m data) data
  { imgW := cardW
    imgH := cardH
    titlePaint := ⟨termText, FontRole.title, marginX, s 50⟩
    posPaint := ⟨data.pos, FontRole.posLabel, marginX + titleW + s 30, s 50 + s 60⟩
    meaningRegion := meaningPaints (cursorAfterHeader m data) (m.wrapMeaning data.meaning)
    columnsRegion := cols.1
    cursorAfterColumns := cols.2
    usageBoxTop := boxTop m data
    usageBoxHeight := boxHeight m data
    usageHeaderPaint := ⟨"USAGE EXAMPLES", FontRole.header, marginX + s 30, boxTop m data + s 30⟩
    exampleRegion := renderExamples m data
    ctaRegion := ctaPaints m (ctaStartY m) (ctaLines m) }

/-! ## The HTTP handler and its collaborators (lines 40–107, 389–407) -/

/-- What `fetch_source_data` extracts from the word-source response: the
fields the enrichment fallback reads.  `term` and `meaning` are accessed by
subscript (they must be present); `synonyms` and `example` are read with
`.get` defaults. -/
structure SourceData where
  term : String
  meaning : String
  synonyms : Option (List String)
  exampleSentence : Option String
deriving DecidableEq, Repr

/-- The ways the Groq enrichment `try` block of lines 91–96 can fail: the
request raising, a non-2xx status, a timeout, or unparseable content. -/
inductive GroqFailure
  | requestError | httpStatusError | timeout | unparseable
deriving DecidableEq, Repr

/-- An uncaught Python exception. -/
inductive PyError
  | typeError
deriving DecidableEq, Repr

/-- The fallback record built at lines 100–107 when the Groq call fails. -/
def groqFallback (src : SourceData) : WordRecord :=
  { term := src.term
    pos := "word"
    meaning := src.meaning
    derivatives := []
    synonyms := (src.synonyms.getD []).take 4
    examples := [src.exampleSentence.getD ""] }

/-- `get_groq_enrichment` (lines 53–107): `source_data['term']` is read
before the `try` block, so a `None` argument raises a `TypeError` out of the
function; otherwise a successful call returns the parsed record and any
failure returns the fallback built from the source fields. -/
def getGroqEnrichment (srcOpt : Option SourceData)
    (llm : Except GroqFailure WordRecord) : Except PyError WordRecord :=
  match srcOpt with
  | none => .error .typeError
  | some src =>
      match llm with
      | .ok rec => .ok rec
      | .error _ => .ok (groqFallback src)

/-- What `handler.do_GET` writes back. -/
inductive HttpResult
  | pngCard (card : CardRender)
  | serverError
deriving DecidableEq, Repr

/-- `handler.do_GET` (lines 389–407): `fetch_source_data` yields
`srcOpt` (`None` on any fetch error, line 50), enrichment runs on it, the
card is rendered and served with status 200; any exception escaping the
pipeline is answered with status 500 and no image. -/
def doGet (m : Metrics) (srcOpt : Option SourceData)
    (llm : Except GroqFailure WordRecord) : HttpResult :=
  match getGroqEnrichment srcOpt llm with
  | .ok rec => .pngCard (createVocabCard m rec)
  | .error _ => .serverError

/-! ## The word highlighter viewed as a two-argument classifier -/

/-- `classify(word, targetTerm)` — the composition the renderer actually
computes: `target_word = data['term'].lower()` (line 263) and
`is_target = target_word in clean_word` (lines 271–272/315–316), with
`clean_word` the alnum-filtered, lower-cased candidate word.  `true` is the
emphasis (bold) style. -/
def classify (word targetTerm : String) : Bool :=
  substrB (pyLower targetTerm) (cleanWord word)

/-- Modelled from the spec's words (§4.4): both the candidate word and the
target term normalised by stripping non-alphanumerics and lower-casing,
emphasis iff the normalised term is a substring of the normalised word.
Stated for comparison against `classify` above. -/
def classifySpecBoth (word targetTerm : String) : Bool :=
  substrB (cleanWord targetTerm) (cleanWord word)

/-! ## Helper lemmas -/

lemma joinSp_singleton (w : String) : joinSp [w] = w := rfl

/-- Soundness invariant of the greedy loop: provided the empty string
measures zero, every flushed line either fits the budget or is one of the
tokens of `T`. -/
lemma wrapGreedy_mem (measure : String → Nat) (maxW : Nat) (T : List String)
    (hε : measure "" = 0) :
    ∀ (ws cur : List String), (∀ w ∈ ws, w ∈ T) →
      (cur = [] ∨ measure (joinSp cur) ≤ maxW ∨ ∃ w ∈ T, cur = [w]) →
      ∀ line ∈ wrapGreedy measure maxW cur ws,
        measure line ≤ maxW ∨ line ∈ T := by
  intro ws
  induction ws with
  | nil =>
    intro cur _ hcur line hline
    by_cases h : cur.isEmpty
    · simp [wrapGreedy, h] at hline
    · simp only [wrapGreedy, h, if_neg, Bool.false_eq_true, if_false,
        List.mem_singleton] at hline
      subst hline
      rcases hcur with h0 | h1 | ⟨w, hw, rfl⟩
      · subst h0; simp at h
      · exact Or.inl h1
      · exact Or.inr (by simpa [joinSp_singleton] using hw)
  | cons w ws ih =>
    intro cur hws hcur line hline
    simp only [wrapGreedy] at hline
    by_cases htest : measure (joinSp (cur ++ [w])) ≤ maxW
    · rw [if_pos htest] at hline
      exact ih (cur ++ [w]) (fun x hx => hws x (List.mem_cons_of_mem _ hx))
        (Or.inr (Or.inl htest)) line hline
    · rw [if_neg htest] at hline
      rcases List.mem_cons.mp hline with rfl | hline'
      · rcases hcur with h0 | h1 | ⟨v, hv, rfl⟩
        · subst h0
          exact Or.inl (by simp [joinSp, hε])
        · exact Or.inl h1
        · exact Or.inr (by simpa [joinSp_singleton] using hv)
      · exact ih [w] (fun x hx => hws x (List.mem_cons_of_mem _ hx))
          (Or.inr (Or.inr ⟨w, hws w (List.mem_cons_self _ _), rfl⟩)) line hline'

/-- C1: for every input text and pixel-width budget, the CTA line wrapper's
greedy whitespace-token accumulation yields only lines whose measured width
fits the budget, except that a token which is by itself wider than the budget
appears unmodified as a line of its own (the line *is* that whitespace token
of the input); empty input yields no lines.  The hypothesis `measure "" = 0`
is the metrics-provider contract that an empty string has zero width. -/
theorem cta_wrapper_sound (measure : String → Nat) (maxW : Nat) (text : String)
    (hε : measure "" = 0) :
    (∀ line ∈ wrapCta measure maxW text,
        measure line ≤ maxW ∨ (maxW < measure line ∧ line ∈ pyTokens text)) ∧
    wrapCta measure maxW "" = [] := by
  refine ⟨fun line hline => ?_, rfl⟩
  have h := wrapGreedy_mem measure maxW (pyTokens text) hε (pyTokens text) []
    (fun _ h => h) (Or.inl rfl) line hline
  rcases Nat.lt_or_ge maxW (measure line) with hlt | hge
  · rcases h with h | h
    · exact Or.inl h
    · exact Or.inr ⟨hlt, h⟩
  · exact Or.inl hge

/-- Witness for C1 at a concrete measure, budget and text. -/
theorem cta_wrapper_sound_witness :
    String.length "ab cd" ≤ 5 ∨ (5 < String.length "ab cd" ∧ "ab cd" ∈ pyTokens "ab cd ef") :=
  (cta_wrapper_sound String.length 5 "ab cd ef" rfl).1 "ab cd" (by decide)

/-! ## Character-level facts about Python's case handling -/

/-- Python `t.upper()` (ASCII fragment, matching Lean's `Char.toUpper`). -/
def pyUpper (t : String) : String := String.mk (t.toList.map Char.toUpper)

lemma char_toNat_ofNat (n : Nat) (h : n < 55296) : (Char.ofNat n).toNat = n := by
  have hv : n.isValidChar := Or.inl h
  rw [Char.ofNat, dif_pos hv]
  simp [Char.toNat, Char.ofNatAux, UInt32.toNat, BitVec.toNat_ofNatLt]

lemma char_isAlphanum_iff (c : Char) :
    c.isAlphanum = true ↔
      (65 ≤ c.toNat ∧ c.toNat ≤ 90) ∨ (97 ≤ c.toNat ∧ c.toNat ≤ 122) ∨
        (48 ≤ c.toNat ∧ c.toNat ≤ 57) := by
  simp only [Char.isAlphanum, Char.isAlpha, Char.isUpper, Char.isLower, Char.isDigit,
    Bool.or_eq_true, Bool.and_eq_true, ge_iff_le, decide_eq_true_eq,
    UInt32.le_def, BitVec.le_def, Char.toNat, UInt32.toNat]
  norm_num
  tauto

lemma char_toLower_toUpper (c : Char) : (c.toUpper).toLower = c.toLower := by
  unfold Char.toUpper Char.toLower
  by_cases h1 : c.toNat ≥ 97 ∧ c.toNat ≤ 122
  · rw [if_pos h1]
    have e1 : (Char.ofNat (c.toNat - 32)).toNat = c.toNat - 32 :=
      char_toNat_ofNat _ (by omega)
    rw [e1]
    have h2 : (c.toNat - 32) ≥ 65 ∧ (c.toNat - 32) ≤ 90 := by omega
    rw [if_pos h2, if_neg (by omega)]
    have e3 : c.toNat - 32 + 32 = c.toNat := by omega
    rw [e3, Char.ofNat_toNat]
  · rw [if_neg h1]

lemma char_isAlphanum_toUpper (c : Char) : (c.toUpper).isAlphanum = c.isAlphanum := by
  unfold Char.toUpper
  by_cases h1 : c.toNat ≥ 97 ∧ c.toNat ≤ 122
  · rw [if_pos h1]
    have e1 : (Char.ofNat (c.toNat - 32)).toNat = c.toNat - 32 :=
      char_toNat_ofNat _ (by omega)
    have l : (Char.ofNat (c.toNat - 32)).isAlphanum = true := by
      rw [char_isAlphanum_iff, e1]; omega
    have r : c.isAlphanum = true := by rw [char_isAlphanum_iff]; omega
    rw [l, r]
  · rw [if_neg h1]

lemma cleanWord_mk_toList (l : List Char) : (String.mk l).toList = l := rfl

lemma cleanWord_pyUpper (w : String) : cleanWord (pyUpper w) = cleanWord w := by
  unfold cleanWord pyUpper
  rw [cleanWord_mk_toList, List.filter_map, List.map_map]
  have h1 : List.filter (Char.isAlphanum ∘ Char.toUpper) w.toList
      = List.filter Char.isAlphanum w.toList :=
    List.filter_congr fun c _ => char_isAlphanum_toUpper c
  rw [h1]
  exact congrArg String.mk (List.map_congr_left fun c _ => char_toLower_toUpper c)

lemma pyLower_pyUpper (t : String) : pyLower (pyUpper t) = pyLower t := by
  unfold pyLower pyUpper
  rw [cleanWord_mk_toList, List.map_map]
  exact congrArg String.mk (List.map_congr_left fun c _ => char_toLower_toUpper c)

/-! ## C2: the word highlighter -/

/-- C2 counterexample: the code lower-cases the target term but never strips
its non-alphanumeric characters (line 263: `target_word =
data['term'].lower()`), so for candidate word "coop" and target term "co-op"
the code selects the plain style while the claim's both-sides-normalised
substring test demands emphasis.  The claimed equivalence is therefore false,
and classification is not punctuation-insensitive in the target argument. -/
theorem classify_target_not_punct_stripped :
    classify "coop" "co-op" = false ∧ classifySpecBoth "coop" "co-op" = true :=
  ⟨by decide, by decide⟩

/-- C2 (amended): the highlighter selects emphasis iff the *lower-cased*
target term (punctuation intact) occurs as a substring of the candidate word
normalised by stripping non-alphanumerics and lower-casing; in particular
`classify "Cats!" "cat"` is emphasis, and classification is case-insensitive
in both arguments but punctuation-insensitive only in the candidate word. -/
theorem classify_amended (word targetTerm : String) :
    (classify word targetTerm = true ↔
      (pyLower targetTerm).toList <:+:
        ((word.toList.filter Char.isAlphanum).map Char.toLower)) ∧
    classify "Cats!" "cat" = true ∧
    classify (pyUpper word) targetTerm = classify word targetTerm ∧
    classify word (pyUpper targetTerm) = classify word targetTerm ∧
    classify (String.mk (word.toList.filter Char.isAlphanum)) targetTerm
      = classify word targetTerm := by
  refine ⟨?_, by decide, ?_, ?_, ?_⟩
  · unfold classify substrB
    rw [decide_eq_true_iff]
    exact Iff.rfl
  · unfold classify
    rw [cleanWord_pyUpper]
  · unfold classify
    rw [pyLower_pyUpper]
  · unfold classify
    have h : cleanWord (String.mk (word.toList.filter Char.isAlphanum)) = cleanWord word := by
      unfold cleanWord
      rw [cleanWord_mk_toList, List.filter_filter]
      simp
    rw [h]

/-! ## Concrete environments and records for witnesses and counterexamples -/

/-- A concrete measurement environment: every glyph 10 px wide (so a string
measures ten times its length), every line box 40 px tall, and the meaning
paragraph wrapping to no line when empty and one line otherwise — consistent
with `textwrap.wrap` on short inputs. -/
def metrics0 : Metrics :=
  { bboxW := fun _ t => 10 * t.length
    bboxH := fun _ _ => 40
    wrapMeaning := fun t => if t = "" then [] else [t] }

/-- A record with fifty synonyms: the two-column block alone runs past the
bottom of the card, driving the usage box's available height far below zero. -/
def degenerateRecord : WordRecord :=
  { term := "overload", pos := "noun", meaning := "",
    derivatives := [], synonyms := List.replicate 50 "a", examples := [] }

/-- A small record whose content sits comfortably inside the card. -/
def roomyRecord : WordRecord :=
  { term := "cat", pos := "noun", meaning := "",
    derivatives := [], synonyms := [], examples := ["The cat sat"] }

/-! ## C3: the usage-examples box height -/

/-- C3 counterexample: with fifty synonyms the column block pushes `box_top`
past the CTA, `available_height` is −1054, yet the `s(100)` floor keeps the
box 50 px tall — so the box height is *not* always ≤ the available height. -/
theorem box_height_can_exceed_available :
    availableHeight metrics0 degenerateRecord < boxHeight metrics0 degenerateRecord := by
  decide

/-- C3 (amended): the box height equals `min(content height, available
height)` floored at `s(100)`; consequently it is always ≥ `s(100)` and never
negative, and it is ≤ the available height *whenever the available height is
at least that minimum* — for a degenerate smaller available height the code
keeps the minimum and overshoots instead. -/
theorem box_height_amended (m : Metrics) (data : WordRecord) :
    boxHeight m data
        = max (min (contentHeight m data) (availableHeight m data)) (s 100) ∧
    s 100 ≤ boxHeight m data ∧
    0 < boxHeight m data ∧
    (s 100 ≤ availableHeight m data → boxHeight m data ≤ availableHeight m data) := by
  have hs : s 100 = 50 := rfl
  unfold boxHeight
  rw [hs] at *
  simp only [hs]
  split
  · refine ⟨?_, le_refl _, by omega, fun h => ?_⟩ <;> omega
  · refine ⟨?_, by omega, by omega, fun h => ?_⟩ <;> omega

/-- Witness for C3's conditional clause at a concrete record whose available
height clears the minimum. -/
theorem box_height_amended_witness :
    boxHeight metrics0 roomyRecord ≤ availableHeight metrics0 roomyRecord :=
  (box_height_amended metrics0 roomyRecord).2.2.2 (by decide)

/-! ## C4: the dry-run pass and the render pass wrap identically -/

lemma dryFont_eq_renderFont (tw w : String) : dryFont tw w = renderFont tw w := rfl

/-- The dry-run line counter never decreases along the fold. -/
lemma dryFold_lines_le (m : Metrics) (tw : String) :
    ∀ (ws : List String) (st : Int × Int),
      st.2 ≤ (ws.foldl (dryStep m tw) st).2 := by
  intro ws
  induction ws with
  | nil => intro st; exact le_refl _
  | cons w ws ih =>
    intro st
    refine le_trans ?_ (ih (dryStep m tw st w))
    unfold dryStep
    dsimp only
    split
    · dsimp only
      omega
    · exact le_refl _

/-- Lockstep invariant between the measurement fold of lines 267–280 and the
render fold of lines 314–330: starting from the same accumulated line width
`a` (the render pen sits at `text_x + a`) and the same line ordinal `l`, and
provided the dry-run's final line fits above `yLim`, the render fold never
trips the vertical `break`, paints every word, advances its pen to the
dry-run's accumulated width, and rests on the dry-run's final line. -/
lemma passes_agree_aux (m : Metrics) (tw : String) (yLim cy0 : Int) :
    ∀ (ws : List String) (a l : Int) (p : List Painted),
      cy0 + ((ws.foldl (dryStep m tw) (a, l)).2 - 1) * s 55 ≤ yLim →
      (ws.foldl (renderWordStep m tw yLim)
          (⟨renderTextX + a, cy0 + (l - 1) * s 55, false, p⟩ : RenderSt)).stopped = false ∧
      (ws.foldl (renderWordStep m tw yLim)
          (⟨renderTextX + a, cy0 + (l - 1) * s 55, false, p⟩ : RenderSt)).x
        = renderTextX + (ws.foldl (dryStep m tw) (a, l)).1 ∧
      (ws.foldl (renderWordStep m tw yLim)
          (⟨renderTextX + a, cy0 + (l - 1) * s 55, false, p⟩ : RenderSt)).y
        = cy0 + ((ws.foldl (dryStep m tw) (a, l)).2 - 1) * s 55 ∧
      (ws.foldl (renderWordStep m tw yLim)
          (⟨renderTextX + a, cy0 + (l - 1) * s 55, false, p⟩ : RenderSt)).painted.length
        = p.length + ws.length := by
  intro ws
  induction ws with
  | nil =>
    intro a l p _
    exact ⟨rfl, rfl, rfl, by simp⟩
  | cons w ws ih =>
    intro a l p hbound
    have h27 : s 55 = 27 := rfl
    have hu : usableWidth = 465 := rfl
    have ht : renderTextX = 75 := rfl
    have hm : renderMaxWidth = 540 := rfl
    set ww : Int := (m.bboxW (dryFont tw w) (w ++ " ") : Int) with hww
    rw [List.foldl_cons] at hbound ⊢
    rw [List.foldl_cons]
    by_cases hcond : a + ww > usableWidth
    · have hdry : dryStep m tw (a, l) w = (ww, l + 1) := by
        unfold dryStep
        dsimp only
        rw [← hww, if_pos hcond]
      rw [hdry] at hbound ⊢
      have hmono := dryFold_lines_le m tw ws (ww, l + 1)
      have ybound : cy0 + ((l + 1) - 1) * s 55 ≤ yLim := by
        rw [h27] at hbound ⊢
        omega
      have hrend : renderWordStep m tw yLim
            (⟨renderTextX + a, cy0 + (l - 1) * s 55, false, p⟩ : RenderSt) w
          = ⟨renderTextX + ww, cy0 + ((l + 1) - 1) * s 55, false,
             p ++ [⟨w, renderFont tw w, renderTextX, cy0 + ((l + 1) - 1) * s 55⟩]⟩ := by
        unfold renderWordStep
        dsimp only
        rw [← dryFont_eq_renderFont, ← hww]
        have hcond' : renderTextX + a + ww > renderMaxWidth := by
          rw [ht, hm]; rw [hu] at hcond; omega
        have hy1 : cy0 + (l - 1) * s 55 + s 55 = cy0 + ((l + 1) - 1) * s 55 := by
          rw [h27]; ring
        rw [if_neg Bool.false_ne_true]
        rw [if_pos hcond', if_pos hcond']
        rw [hy1, if_neg (not_lt.mpr ybound)]
      rw [hrend]
      have := ih ww (l + 1) (p ++ [⟨w, renderFont tw w, renderTextX, cy0 + ((l + 1) - 1) * s 55⟩])
        hbound
      refine ⟨this.1, this.2.1, this.2.2.1, ?_⟩
      rw [this.2.2.2]
      simp only [List.length_append, List.length_cons, List.length_nil]
      omega
    · have hdry : dryStep m tw (a, l) w = (a + ww, l) := by
        unfold dryStep
        dsimp only
        rw [← hww, if_neg hcond]
      rw [hdry] at hbound ⊢
      have hmono := dryFold_lines_le m tw ws (a + ww, l)
      have ybound : cy0 + (l - 1) * s 55 ≤ yLim := by
        rw [h27] at hbound ⊢
        omega
      have hrend : renderWordStep m tw yLim
            (⟨renderTextX + a, cy0 + (l - 1) * s 55, false, p⟩ : RenderSt) w
          = ⟨renderTextX + (a + ww), cy0 + (l - 1) * s 55, false,
             p ++ [⟨w, renderFont tw w, renderTextX + a, cy0 + (l - 1) * s 55⟩]⟩ := by
        unfold renderWordStep
        dsimp only
        rw [← dryFont_eq_renderFont, ← hww]
        have hcond' : ¬(renderTextX + a + ww > renderMaxWidth) := by
          rw [ht, hm]; rw [hu] at hcond; omega
        rw [if_neg Bool.false_ne_true]
        rw [if_neg hcond', if_neg hcond']
        rw [if_neg (not_lt.mpr ybound)]
        have hx : renderTextX + a + ww = renderTextX + (a + ww) := by ring
        rw [hx]
      rw [hrend]
      have := ih (a + ww) l (p ++ [⟨w, renderFont tw w, renderTextX + a, cy0 + (l - 1) * s 55⟩])
        hbound
      refine ⟨this.1, this.2.1, this.2.2.1, ?_⟩
      rw [this.2.2.2]
      simp only [List.length_append, List.length_cons, List.length_nil]
      omega

/-- C4: the measurement dry run (lines 266–281) and the render pass
(lines 300–332) use identical wrapping logic: the styling decision is the
same function of each word, and — absent box-bottom truncation, i.e. when the
dry-run's final line fits above the bottom inset `yLim` — the render pass
paints every word of the sentence, breaking lines at the same word positions,
and finishes on line `drySentenceLines` (its last pen row is the dry-run line
count minus one, in `s(55)` steps below the start row), so the dry-run line
count equals the number of lines the render pass paints. -/
theorem dry_render_passes_agree (m : Metrics) (tw : String) (cy yLim : Int)
    (sentence : String)
    (h : cy + (drySentenceLines m tw sentence - 1) * s 55 ≤ yLim) :
    (renderSentence m tw yLim cy sentence).stopped = false ∧
    (renderSentence m tw yLim cy sentence).painted.length = (pyTokens sentence).length ∧
    (renderSentence m tw yLim cy sentence).y
        = cy + (drySentenceLines m tw sentence - 1) * s 55 ∧
    (∀ w, dryFont tw w = renderFont tw w) := by
  have e0 : (⟨renderTextX, cy, false, []⟩ : RenderSt)
      = ⟨renderTextX + 0, cy + ((1 : Int) - 1) * s 55, false, []⟩ := by
    norm_num
  unfold renderSentence drySentenceLines
  rw [e0]
  have hx := passes_agree_aux m tw yLim cy (pyTokens sentence) 0 1 [] h
  refine ⟨hx.1, ?_, hx.2.2.1, fun w => rfl⟩
  rw [hx.2.2.2]
  simp

/-- Witness for C4 at a concrete sentence that fits its box. -/
theorem dry_render_passes_agree_witness :
    (renderSentence metrics0 "cat" 600 100 "The cat sat").stopped = false :=
  (dry_render_passes_agree metrics0 "cat" 100 600 "The cat sat" (by decide)).1

/-! ## C5: nothing is painted below the box's bottom inset -/

/-- Invariant of the word loop: painted entries never sink below `yLim`
(line 327's check runs after wrapping and before drawing). -/
lemma renderFold_painted_le (m : Metrics) (tw : String) (yLim : Int) :
    ∀ (ws : List String) (st : RenderSt),
      (∀ q ∈ st.painted, q.y ≤ yLim) → (st.stopped = false → st.y ≤ yLim) →
      ∀ q ∈ (ws.foldl (renderWordStep m tw yLim) st).painted, q.y ≤ yLim := by
  intro ws
  induction ws with
  | nil => intro st hp _ q hq; exact hp q hq
  | cons w ws ih =>
    intro st hp hy q hq
    rw [List.foldl_cons] at hq
    refine ih (renderWordStep m tw yLim st w) ?_ ?_ q hq
    · intro r hr
      by_cases hst : st.stopped
      · unfold renderWordStep at hr
        rw [if_pos hst] at hr
        exact hp r hr
      · unfold renderWordStep at hr
        rw [if_neg hst] at hr
        dsimp only at hr
        by_cases hc : st.x + (m.bboxW (renderFont tw w) (w ++ " ") : Int) > renderMaxWidth
        · rw [if_pos hc, if_pos hc] at hr
          by_cases hyl : st.y + s 55 > yLim
          · rw [if_pos hyl] at hr
            exact hp r hr
          · rw [if_neg hyl] at hr
            rcases List.mem_append.mp hr with hr' | hr'
            · exact hp r hr'
            · rw [List.mem_singleton] at hr'
              subst hr'
              exact not_lt.mp hyl
        · rw [if_neg hc, if_neg hc] at hr
          by_cases hyl : st.y > yLim
          · rw [if_pos hyl] at hr
            exact hp r hr
          · rw [if_neg hyl] at hr
            rcases List.mem_append.mp hr with hr' | hr'
            · exact hp r hr'
            · rw [List.mem_singleton] at hr'
              subst hr'
              exact not_lt.mp hyl
    · intro hs
      by_cases hst : st.stopped
      · unfold renderWordStep at hs ⊢
        rw [if_pos hst] at hs ⊢
        exact hy hs
      · unfold renderWordStep at hs ⊢
        rw [if_neg hst] at hs ⊢
        dsimp only at hs ⊢
        by_cases hc : st.x + (m.bboxW (renderFont tw w) (w ++ " ") : Int) > renderMaxWidth
        · rw [if_pos hc, if_pos hc] at hs ⊢
          by_cases hyl : st.y + s 55 > yLim
          · rw [if_pos hyl] at hs
            simp at hs
          · rw [if_neg hyl]
            exact not_lt.mp hyl
        · rw [if_neg hc, if_neg hc] at hs ⊢
          by_cases hyl : st.y > yLim
          · rw [if_pos hyl] at hs
            simp at hs
          · rw [if_neg hyl]
            exact not_lt.mp hyl

/-- Invariant of the sentence loop (lines 300–332): starting at or above
`yLim`, every draw call it issues (bullets included) stays at or above
`yLim`. -/
lemma renderExamplesGo_painted_le (m : Metrics) (tw : String) (yLim : Int) :
    ∀ (sents : List String) (cy : Int),
      ∀ q ∈ renderExamplesGo m tw yLim cy sents, q.y ≤ yLim := by
  intro sents
  induction sents with
  | nil => intro cy q hq; simp [renderExamplesGo] at hq
  | cons sent rest ih =>
    intro cy q hq
    unfold renderExamplesGo at hq
    by_cases h : cy > yLim
    · rw [if_pos h] at hq
      simp at hq
    · rw [if_neg h] at hq
      push_neg at h
      rcases List.mem_cons.mp hq with rfl | hq'
      · exact h
      rcases List.mem_append.mp hq' with hq'' | hq''
      · exact renderFold_painted_le m tw yLim (pyTokens sent)
          ⟨renderTextX, cy, false, []⟩ (by simp) (fun _ => h) q hq''
      · exact ih _ q hq''

/-- C5: for every measurement environment and record, the render pass never
paints an example word (or bullet) below the usage box's bottom inset
`box_top + box_height - s(50)`: emission stops there and trailing content is
silently dropped rather than drawn outside the box. -/
theorem render_never_paints_below_box (m : Metrics) (data : WordRecord) :
    ∀ q ∈ renderExamples m data,
      q.y ≤ boxTop m data + boxHeight m data - s 50 := by
  intro q hq
  exact renderExamplesGo_painted_le m (targetWord data)
    (boxTop m data + boxHeight m data - s 50) data.examples _ q hq

/-- Witness for C5 at a concrete record and painted word. -/
theorem render_never_paints_below_box_witness :
    (⟨"The", FontRole.body, 75, 255⟩ : Painted).y
      ≤ boxTop metrics0 roomyRecord + boxHeight metrics0 roomyRecord - s 50 :=
  render_never_paints_below_box metrics0 roomyRecord
    ⟨"The", FontRole.body, 75, 255⟩ (by decide)

/-! ## C6: enrichment failure degrades, rendering continues -/

/-- C6: whenever the Groq call fails — request error, non-2xx status,
timeout, or unparseable content — while source data exists,
`get_groq_enrichment` returns the synthesized record carrying the original
source term, the source-derived meaning and the placeholder part of speech
"word", and the handler still renders and serves a card built from exactly
that record instead of letting the failure escape. -/
theorem enrichment_failure_still_renders (m : Metrics) (src : SourceData)
    (f : GroqFailure) :
    getGroqEnrichment (some src) (Except.error f) = Except.ok (groqFallback src) ∧
    (groqFallback src).term = src.term ∧
    (groqFallback src).meaning = src.meaning ∧
    (groqFallback src).pos = "word" ∧
    doGet m (some src) (Except.error f)
      = HttpResult.pngCard (createVocabCard m (groqFallback src)) :=
  ⟨rfl, rfl, rfl, rfl, rfl⟩

/-! ## C7: the two columns share their top and the cursor takes the max -/

/-- A fold whose step adds `s 55` to its first component advances it by
`s 55` per item. -/
lemma foldl_first_adds {α : Type} (f : (Int × List Painted) → α → (Int × List Painted))
    (hf : ∀ st x, (f st x).1 = st.1 + s 55) :
    ∀ (items : List α) (st : Int × List Painted),
      (items.foldl f st).1 = st.1 + items.length * s 55 := by
  intro items
  induction items with
  | nil => intro st; simp
  | cons x xs ih =>
    intro st
    rw [List.foldl_cons, ih, hf]
    simp only [List.length_cons]
    push_cast
    ring

/-- C7: both column headers are drawn at the same shared `cursor_y`; the
cursor after the block is `max(left column bottom, right column bottom) +
s(40)` where each bottom is the shared top plus the header advance `s(60)`
plus `s(55)` per item; and with both lists empty each column draws only its
header and the cursor advances by the header height alone. -/
theorem columns_synchronized (m : Metrics) (cy : Int) (data : WordRecord) :
    (columnsBlock m cy data).2
      = max (cy + s 60 + data.derivatives.length * s 55)
            (cy + s 60 + data.synonyms.length * s 55) + s 40 ∧
    (⟨"DERIVATIVES", FontRole.header, marginX, cy⟩ : Painted) ∈ (columnsBlock m cy data).1 ∧
    (⟨"SYNONYMS", FontRole.header, col2X, cy⟩ : Painted) ∈ (columnsBlock m cy data).1 ∧
    (data.derivatives = [] → data.synonyms = [] →
      (columnsBlock m cy data).1
          = [⟨"DERIVATIVES", FontRole.header, marginX, cy⟩,
             ⟨"SYNONYMS", FontRole.header, col2X, cy⟩] ∧
      (columnsBlock m cy data).2 = cy + s 60 + s 40) := by
  refine ⟨?_, ?_, ?_, ?_⟩
  · unfold columnsBlock
    dsimp only
    rw [foldl_first_adds _ (fun st x => rfl), foldl_first_adds _ (fun st x => rfl)]
  · unfold columnsBlock
    dsimp only
    exact List.mem_cons_self _ _
  · unfold columnsBlock
    dsimp only
    exact List.mem_cons_of_mem _ (List.mem_append_right _ (List.mem_cons_self _ _))
  · intro hd hsyn
    unfold columnsBlock
    rw [hd, hsyn]
    exact ⟨rfl, by norm_num⟩

/-- Witness for C7's empty-lists clause at a concrete record. -/
theorem columns_synchronized_witness :
    (columnsBlock metrics0 130 roomyRecord).1
        = [⟨"DERIVATIVES", FontRole.header, marginX, 130⟩,
           ⟨"SYNONYMS", FontRole.header, col2X, 130⟩] ∧
    (columnsBlock metrics0 130 roomyRecord).2 = 130 + s 60 + s 40 :=
  (columns_synchronized metrics0 130 roomyRecord).2.2.2 rfl rfl

/-! ## C8: the handler on fetch outcomes -/

/-- C8 counterexample: on a total fetch failure (`fetch_source_data` returns
`None`, line 50) the handler does *not* render a card — `get_groq_enrichment`
reads `source_data['term']` before its `try` block, the `TypeError` escapes
to `do_GET`'s `except`, and the response is a 500 error with no image. -/
theorem fetch_failure_serves_no_card :
    doGet metrics0 none (Except.error GroqFailure.requestError)
      = HttpResult.serverError := rfl

/-- C8 (amended): whenever source data was fetched, the handler renders and
returns a card — built from the enriched record on success and from the
degraded record synthesized out of the source fields on enrichment failure
(never from nothing); but on total fetch failure it aborts with a 500 error
response and no card is produced. -/
theorem handler_fetch_outcomes (m : Metrics) (src : SourceData)
    (llm : Except GroqFailure WordRecord) :
    doGet m (some src) llm
        = HttpResult.pngCard (createVocabCard m
            (match llm with
             | .ok rec => rec
             | .error _ => groqFallback src)) ∧
    doGet m none llm = HttpResult.serverError := by
  cases llm with
  | ok rec => exact ⟨rfl, rfl⟩
  | error f => exact ⟨rfl, rfl⟩

/-! ## C10: fixed card dimensions -/

/-- C10: for every record (and every measurement environment), the rendered
image has the fixed dimensions `1200 × 1400` scaled by the constant `0.5` —
`600 × 700` pixels — independent of the record's content, and those
dimensions agree with the uniform scale helper `s` applied to the base
constants. -/
theorem card_fixed_dimensions (m : Metrics) (data : WordRecord) :
    (createVocabCard m data).imgW = s 1200 ∧
    (createVocabCard m data).imgH = s 1400 ∧
    s 1200 = 600 ∧ s 1400 = 700 :=
  ⟨rfl, rfl, rfl, rfl⟩
